import Mathlib

/-!
Verification of the onion-architecture reference implementation
(`getAccountByUserEmail` orchestration, service contracts and providers).

The TypeScript source is shallowly embedded:
* newtypes (`Email`, `UserId`, `AccountId` from newtype-ts) become
  single-field structures with explicit wrap/unwrap isomorphisms;
* `TaskEither F A` denotes, for the deterministic providers modelled here,
  to `Except F A` (a task is a deferred pure computation; its resolved
  value is all the orchestration can observe);
* `ReaderTaskEither E F A` becomes `E → ...` with the environment passed
  explicitly;
* the shell computation is instrumented with an explicit list of service
  invocation events, the ground truth for "the collaborator was (not)
  invoked" that the repository's jest spies observe;
* JavaScript runtime values that flow through `unknown`-typed positions
  (`DomainError` payloads, sqlite rows, io-ts inputs) are modelled by the
  inductive `JSVal`.
-/

/-- `Email` newtype over `string` (src/core/email.ts). -/
structure Email where
  value : String
deriving DecidableEq, Repr

/-- `UserId` newtype over a UUID-branded string (src/core/user.ts). -/
structure UserId where
  value : String
deriving DecidableEq, Repr

/-- `AccountId` newtype over a UUID-branded string (src/core/account.ts). -/
structure AccountId where
  value : String
deriving DecidableEq, Repr

/-- The `iso` helper of newtype-ts: an explicit wrap/unwrap pair. -/
structure IsoStr (α : Type) where
  wrap : String → α
  unwrap : α → String

def isoEmail : IsoStr Email := ⟨Email.mk, Email.value⟩

def isoUserId : IsoStr UserId := ⟨UserId.mk, UserId.value⟩

def isoAccountId : IsoStr AccountId := ⟨AccountId.mk, AccountId.value⟩

/-- `User` domain model (src/core/user.ts), fields in source order. -/
structure User where
  firstName : String
  lastName : String
  id : UserId
  email : Email
deriving DecidableEq, Repr

/-- `Account` domain model (src/core/account.ts). -/
structure Account where
  accountId : AccountId
  ownerId : UserId
deriving DecidableEq, Repr

/-!
## JavaScript runtime values

`JSVal` models the JavaScript values that appear at `unknown`-typed
positions: primitives, arrays and objects.  An object carries an optional
custom `toString` rendering (`none` means the default
`Object.prototype.toString`, which yields `"[object Object]"`).
`vBigInt` models the one JSON-unserialisable primitive reachable here
(`JSON.stringify` throws on BigInt values).
-/

inductive JSVal where
  | vUndef : JSVal
  | vNull : JSVal
  | vBool : Bool → JSVal
  | vNum : Int → JSVal
  | vBigInt : Int → JSVal
  | vStr : String → JSVal
  | vArr : List JSVal → JSVal
  | vObj : Option String → List (String × JSVal) → JSVal
deriving Repr

/-- JavaScript truthiness of a value. -/
def jsTruthy : JSVal → Bool
  | .vUndef => false
  | .vNull => false
  | .vBool b => b
  | .vNum n => n ≠ 0
  | .vBigInt n => n ≠ 0
  | .vStr s => s ≠ ""
  | .vArr _ => true
  | .vObj _ _ => true

/-- Whether `typeof data === "object"` holds (true for `null`, arrays and
objects; false for every other primitive). -/
def jsTypeofIsObject : JSVal → Bool
  | .vNull => true
  | .vArr _ => true
  | .vObj _ _ => true
  | _ => false

/-- Rendering of an `Int` the way JavaScript renders numbers that are
integers (no fractional part printed). -/
def jsNumToString (n : Int) : String := toString n

mutual

/-- `String(v)` / `v.toString()`: the default JavaScript string conversion.
Arrays render as their elements joined with `","` (with `null` and
`undefined` elements rendered empty, per `Array.prototype.join`); an object
renders via its custom `toString` when it has one, else as
`"[object Object]"`. -/
def jsToString : JSVal → String
  | .vUndef => "undefined"
  | .vNull => "null"
  | .vBool b => if b then "true" else "false"
  | .vNum n => jsNumToString n
  | .vBigInt n => jsNumToString n
  | .vStr s => s
  | .vArr es => jsArrToString es
  | .vObj custom _ =>
    match custom with
    | some s => s
    | none => "[object Object]"

/-- Element-wise rendering used by `Array.prototype.toString`. -/
def jsArrToString : List JSVal → String
  | [] => ""
  | [e] => jsElemToString e
  | e :: rest => jsElemToString e ++ "," ++ jsArrToString rest

/-- `Array.prototype.join` renders `null` and `undefined` elements as the
empty string. -/
def jsElemToString : JSVal → String
  | .vUndef => ""
  | .vNull => ""
  | v => jsToString v

end

/-- JSON string escaping used by `JSON.stringify` for the characters that
can occur in this repository's data. -/
def jsonEscapeChar (c : Char) : String :=
  if c = '"' then "\\\""
  else if c = '\\' then "\\\\"
  else if c = '\n' then "\\n"
  else if c = '\r' then "\\r"
  else if c = '\t' then "\\t"
  else String.singleton c

def jsonQuote (s : String) : String :=
  "\"" ++ String.join (s.toList.map jsonEscapeChar) ++ "\""

/-- `n` spaces, for `JSON.stringify`'s indentation. -/
def jsonSpaces (n : Nat) : String := String.join (List.replicate n " ")

/-!
## JSON.stringify

`jsonPretty` models `JSON.stringify(data, null, 2)` and `jsonCompact`
models `JSON.stringify(data)`.  The result is `Except Unit (Option String)`:
`.error ()` models a thrown `TypeError` (BigInt values), `.ok none` models
the call returning the JavaScript value `undefined` (as it does for an
`undefined` input), `.ok (some s)` a real string.  Fields whose value is
unserialisable-as-a-member (`undefined`) are omitted from objects and
rendered `null` inside arrays, per the JSON.stringify specification.
-/

mutual

def jsonPretty (ind : Nat) : JSVal → Except Unit (Option String)
  | .vUndef => .ok none
  | .vNull => .ok (some "null")
  | .vBool b => .ok (some (if b then "true" else "false"))
  | .vNum n => .ok (some (jsNumToString n))
  | .vBigInt _ => .error ()
  | .vStr s => .ok (some (jsonQuote s))
  | .vArr es => do
    let parts ← jsonPrettyArr (ind + 2) es
    match parts with
    | [] => pure (some "[]")
    | _ =>
      pure (some ("[\n"
        ++ String.intercalate ",\n" (parts.map (fun p => jsonSpaces (ind + 2) ++ p))
        ++ "\n" ++ jsonSpaces ind ++ "]"))
  | .vObj _ fields => do
    let parts ← jsonPrettyFields (ind + 2) fields
    match parts with
    | [] => pure (some "\x7b\x7d")
    | _ =>
      pure (some ("\x7b\n"
        ++ String.intercalate ",\n"
          (parts.map (fun kv => jsonSpaces (ind + 2) ++ kv.1 ++ ": " ++ kv.2))
        ++ "\n" ++ jsonSpaces ind ++ "\x7d"))

def jsonPrettyArr (ind : Nat) : List JSVal → Except Unit (List String)
  | [] => .ok []
  | e :: rest => do
    let r ← jsonPretty ind e
    let rs ← jsonPrettyArr ind rest
    pure ((r.getD "null") :: rs)

def jsonPrettyFields (ind : Nat) :
    List (String × JSVal) → Except Unit (List (String × String))
  | [] => .ok []
  | (k, v) :: rest => do
    let r ← jsonPretty ind v
    let rs ← jsonPrettyFields ind rest
    match r with
    | none => pure rs
    | some s => pure ((jsonQuote k, s) :: rs)

end

mutual

def jsonCompact : JSVal → Except Unit (Option String)
  | .vUndef => .ok none
  | .vNull => .ok (some "null")
  | .vBool b => .ok (some (if b then "true" else "false"))
  | .vNum n => .ok (some (jsNumToString n))
  | .vBigInt _ => .error ()
  | .vStr s => .ok (some (jsonQuote s))
  | .vArr es => do
    let parts ← jsonCompactArr es
    pure (some ("[" ++ String.intercalate "," parts ++ "]"))
  | .vObj _ fields => do
    let parts ← jsonCompactFields fields
    pure (some ("\x7b" ++ String.intercalate "," parts ++ "\x7d"))

def jsonCompactArr : List JSVal → Except Unit (List String)
  | [] => .ok []
  | e :: rest => do
    let r ← jsonCompact e
    let rs ← jsonCompactArr rest
    pure ((r.getD "null") :: rs)

def jsonCompactFields : List (String × JSVal) → Except Unit (List String)
  | [] => .ok []
  | (k, v) :: rest => do
    let r ← jsonCompact v
    let rs ← jsonCompactFields rest
    match r with
    | none => pure rs
    | some s => pure ((jsonQuote k ++ ":" ++ s) :: rs)

end

mutual

/-- A basic model of `util.inspect(data, { depth: null, colors: false })`,
reached only when `JSON.stringify` throws (BigInt somewhere in the value). -/
def utilInspect : JSVal → String
  | .vUndef => "undefined"
  | .vNull => "null"
  | .vBool b => if b then "true" else "false"
  | .vNum n => jsNumToString n
  | .vBigInt n => jsNumToString n ++ "n"
  | .vStr s => "'" ++ s ++ "'"
  | .vArr es => "[ " ++ String.intercalate ", " (utilInspectArr es) ++ " ]"
  | .vObj _ fields =>
    "\x7b " ++ String.intercalate ", " (utilInspectFields fields) ++ " \x7d"

def utilInspectArr : List JSVal → List String
  | [] => []
  | e :: rest => utilInspect e :: utilInspectArr rest

def utilInspectFields : List (String × JSVal) → List String
  | [] => []
  | (k, v) :: rest => (k ++ ": " ++ utilInspect v) :: utilInspectFields rest

end

/-!
## DomainError (src/core/domain-error.ts)
-/

/-- The `try JSON.stringify(data, null, 2) catch util.inspect(data)` tail
of `DomainError.safeStringify`. -/
def jsonFallback (data : JSVal) : Option String :=
  match jsonPretty 0 data with
  | .ok r => r
  | .error _ => some (utilInspect data)

/-- `DomainError.safeStringify`: for a truthy value of `typeof "object"`,
prefer its own `toString()` when that differs from
`Object.prototype.toString()` (the string `"[object Object]"`); otherwise
pretty-print with `JSON.stringify(data, null, 2)`, falling back to
`util.inspect` when stringification throws.  The result is an
`Option String` because `JSON.stringify(undefined, null, 2)` returns the
JavaScript value `undefined`, which is then what `this.message` is set to. -/
def safeStringify (data : JSVal) : Option String :=
  if jsTruthy data && jsTypeofIsObject data then
    let nativeStringified := jsToString data
    if nativeStringified ≠ "[object Object]" then some nativeStringified
    else jsonFallback data
  else jsonFallback data

/-- A constructed `DomainError` (or subclass): the subclass `name` and the
`message` computed once, at construction, by `safeStringify`.  The
structure has no mutation, mirroring the `public readonly message`
field. -/
structure DomainError where
  name : String
  message : Option String
deriving DecidableEq, Repr

/-- `new SomeDomainErrorSubclass(data)`. -/
def mkDomainError (name : String) (data : JSVal) : DomainError :=
  ⟨name, safeStringify data⟩

/-!
## Service errors (src/services/user-service.ts, account-service)

`UserServiceError` and `AccountServiceError` are `DomainError` subclasses;
a constructed instance carries the subclass `name` and the message that
`DomainError`'s constructor computes from the construction payload.
-/

structure UserServiceError where
  name : String
  message : Option String
deriving DecidableEq, Repr

structure AccountServiceError where
  name : String
  message : Option String
deriving DecidableEq, Repr

/-- `new UserServiceDbQueryError(e)` (src/providers/db-user-provider.ts). -/
def mkUserServiceDbQueryError (data : JSVal) : UserServiceError :=
  ⟨"UserServiceDbQueryError", safeStringify data⟩

/-- `new UserServiceInvalidDataError(e)` (src/providers/db-user-provider.ts). -/
def mkUserServiceInvalidDataError (data : JSVal) : UserServiceError :=
  ⟨"UserServiceInvalidDataError", safeStringify data⟩

/-!
## The shell computation (src/shell/get-account-by-user-email.ts)

`ReaderTaskEither E F A` is embedded as `E → TrRes F A` where
`TrRes F A := List CallEvent × Except F A`: the resolved value of the
task together with the ordered list of service invocations performed
while resolving it.  The invocation list is the observation the
repository's jest spies make ("the Account service is never invoked").
-/

inductive CallEvent where
  | userCall : Email → CallEvent
  | accountCall : UserId → CallEvent
deriving DecidableEq, Repr

abbrev TrRes (F A : Type) := List CallEvent × Except F A

def pureTr {F A : Type} (a : A) : TrRes F A := ([], .ok a)

def mapTr {F A B : Type} (f : A → B) : TrRes F A → TrRes F B
  | (t, .ok a) => (t, .ok (f a))
  | (t, .error e) => (t, .error e)

/-- `RTE.flatMap` at a fixed environment: strictly sequences, and when the
first step fails the continuation is never constructed or run (its trace
contributes nothing). -/
def flatMapTr {F A B : Type} : TrRes F A → (A → TrRes F B) → TrRes F B
  | (t, .ok a), f => ((t ++ (f a).1 : List CallEvent), (f a).2)
  | (t, .error e), _ => (t, .error e)

def exceptMapErr {ε ε' α : Type} (f : ε → ε') : Except ε α → Except ε' α
  | .ok a => .ok a
  | .error e => .error (f e)

/-- `O.traverse(RTE.ApplicativePar)`: absent input short-circuits to
"succeeded with absent" without invoking the function; present input runs
the function and wraps its success. -/
def traverseOptionTr {F α β : Type} (f : α → TrRes F β) :
    Option α → TrRes F (Option β)
  | none => pureTr none
  | some a => mapTr some (f a)

/-- The error union `UserServiceError | AccountServiceError` of the shell,
embedded as a sum (`.inl` = user-service failure, `.inr` = account-service
failure). -/
abbrev ShellError := Sum UserServiceError AccountServiceError

/-- The environment `UserService & AccountService`: one capability record
per service, each exposing exactly one operation.  The operations are the
resolved denotations of the providers' `TaskEither`s — pure functions of
their input. -/
structure ShellEnv where
  getUserByEmail : Email → Except UserServiceError (Option User)
  getAccountByOwnerId : UserId → Except AccountServiceError (Option Account)

/-- Accessor `getUserByEmail` of src/services/user-service.ts: extracts
the capability from the environment and invokes the operation (recorded as
a `userCall` invocation event). -/
def getUserByEmailR (email : Email) (env : ShellEnv) :
    TrRes ShellError (Option User) :=
  ([.userCall email], exceptMapErr Sum.inl (env.getUserByEmail email))

/-- Accessor `getAccountByOwnerId` of the account service: extracts the
capability and invokes the operation (recorded as an `accountCall`). -/
def getAccountByOwnerIdR (ownerId : UserId) (env : ShellEnv) :
    TrRes ShellError (Option Account) :=
  ([.accountCall ownerId], exceptMapErr Sum.inr (env.getAccountByOwnerId ownerId))

/-- `getAccountByUserEmail` (src/shell/get-account-by-user-email.ts):
`flow(getUserByEmail, RTE.flatMap(flow(O.traverse(RTE.ApplicativePar)(({id}) =>
getAccountByOwnerId(id)), RTE.map(O.flatten))))`. -/
def getAccountByUserEmail (email : Email) (env : ShellEnv) :
    TrRes ShellError (Option Account) :=
  flatMapTr (getUserByEmailR email env) fun optUser =>
    mapTr Option.join
      (traverseOptionTr (fun u => getAccountByOwnerIdR u.id env) optUser)

/-!
## Hardcoded providers
-/

/-- `RR.lookup` on the model of a `ReadonlyRecord` as an association
list. -/
def lookupRR {α : Type} (k : String) : List (String × α) → Option α
  | [] => none
  | (k', v) :: rest => if k = k' then some v else lookupRR k rest

def ethanUser : User :=
  ⟨"Ethan", "Kent",
    isoUserId.wrap "a2a9a967-10bb-43b9-8230-99ae3a3d161f",
    isoEmail.wrap "ekent@mercury.com"⟩

/-- `HardcodedUserDb` (src/providers/hardcoded-user-provider.ts). -/
def HardcodedUserDb : List (String × User) := [("ekent@mercury.com", ethanUser)]

/-- The runtime JSON shape of a `User` (newtype wrappers are transparent
at runtime, so ids and emails serialise as their underlying strings). -/
def userToJSVal (u : User) : JSVal :=
  .vObj none
    [("firstName", .vStr u.firstName), ("lastName", .vStr u.lastName),
     ("id", .vStr u.id.value), ("email", .vStr u.email.value)]

/-- The runtime shape of an fp-ts `Option`:
`{_tag:"None"}` / `{_tag:"Some",value:...}`. -/
def optionUserToJSVal : Option User → JSVal
  | none => .vObj none [("_tag", .vStr "None")]
  | some u => .vObj none [("_tag", .vStr "Some"), ("value", userToJSVal u)]

/-- Rendering of `${JSON.stringify(v)}` inside a template literal
(`undefined` renders as the string `"undefined"`).  The throwing case is
unreachable for the Option-of-User values logged here. -/
def stringifyForLog (v : JSVal) : String :=
  match jsonCompact v with
  | .ok (some s) => s
  | .ok none => "undefined"
  | .error _ => ""

/-- The template literal `` `Looking up email \`${m}\`` `` of the
hardcoded provider. -/
def lookingUpMsg (m : String) : String := "Looking up email `" ++ m ++ "`"

/-- `getUserByEmail` of src/providers/hardcoded-user-provider.ts:
unwrap the email, log, look it up in the hardcoded record, log the result.
Its error type is `never` — the computation cannot fail — so the
denotation is the log trace together with the optional user. -/
def hardcodedGetUserByEmail (s : Email) : List String × Option User :=
  let m := isoEmail.unwrap s
  let u := lookupRR m HardcodedUserDb
  let resultStr := stringifyForLog (optionUserToJSVal u)
  ([lookingUpMsg m, "Result: " ++ resultStr], u)

def hardcodedAccount : Account :=
  ⟨isoAccountId.wrap "69bdcc3d-95df-4497-a6a7-c529e1b010d6",
    isoUserId.wrap "a2a9a967-10bb-43b9-8230-99ae3a3d161f"⟩

/-- `HardcodedAccountDb` (src/providers/hardcoded-account-provider). -/
def HardcodedAccountDb : List (String × Account) :=
  [("a2a9a967-10bb-43b9-8230-99ae3a3d161f", hardcodedAccount)]

/-- `getAccountByOwnerId` of the `HardcodedAccountProvider`:
`pipe(ownerId, isoUserId.unwrap, (e) => RR.lookup(e)(HardcodedAccountDb),
TE.of)` — a lookup lifted with `TE.of`, i.e. always a success. -/
def hardcodedGetAccountByOwnerId (ownerId : UserId) :
    Except AccountServiceError (Option Account) :=
  .ok (lookupRR (isoUserId.unwrap ownerId) HardcodedAccountDb)

/-!
## io-ts codecs (src/core/email.ts, src/core/user.ts)
-/

/-- `Email = fromNewtype<Email>(t.string)`: decoding succeeds exactly on
strings, wrapping the string unchanged; the io-ts error report is
modelled by the offending input value. -/
def Email.decode : JSVal → Except JSVal Email
  | .vStr s => .ok (isoEmail.wrap s)
  | v => .error v

def isHexDigit (c : Char) : Bool :=
  c.isDigit || ('a' ≤ c && c ≤ 'f') || ('A' ≤ c && c ≤ 'F')

/-- The io-ts-types `UUID` regular expression
`/^[0-9a-f]{8}-[0-9a-f]{4}-[1-5][0-9a-f]{3}-[89ab][0-9a-f]{3}-[0-9a-f]{12}$/i`. -/
def isUUID (s : String) : Bool :=
  match s.splitOn "-" with
  | [a, b, c, d, e] =>
    a.length = 8 && b.length = 4 && c.length = 4 && d.length = 4
      && e.length = 12
      && (a ++ b ++ c ++ d ++ e).toList.all isHexDigit
      && (match c.toList with
          | x :: _ => '1' ≤ x && x ≤ '5'
          | _ => false)
      && (match d.toList with
          | x :: _ => x = '8' || x = '9' || x = 'a' || x = 'b' || x = 'A' || x = 'B'
          | _ => false)
  | _ => false

/-- `User.decode` of the io-ts codec `t.type({firstName: t.string,
lastName: t.string, id: UserId, email: Email})`: succeeds exactly on
non-array objects whose four fields validate (excess properties allowed);
the io-ts error report is modelled by the offending input value. -/
def decodeUser : JSVal → Except JSVal User
  | .vObj custom fields =>
    (match lookupRR "firstName" fields, lookupRR "lastName" fields,
        lookupRR "id" fields, lookupRR "email" fields with
     | some (.vStr fn), some (.vStr ln), some (.vStr idS), some (.vStr em) =>
       if isUUID idS then .ok ⟨fn, ln, isoUserId.wrap idS, isoEmail.wrap em⟩
       else .error (.vObj custom fields)
     | _, _, _, _ => .error (.vObj custom fields))
  | v => .error v

/-!
## The db-backed user provider (src/providers/db-user-provider.ts)
-/

/-- The `sqlite3` database collaborator: the denotation of `db.get` on a
query and parameter list.  `.error e` models the callback receiving a
non-null error `e` (so the wrapped promise rejects with `e`, captured by
`TE.tryCatch` with `identity`); `.ok r` models the callback receiving the
row `r` (with `undefined` standing for "no row"). -/
structure DbDeps where
  dbGet : String → List JSVal → Except JSVal JSVal

/-- `O.fromNullable`: `null` and `undefined` become `none`. -/
def fromNullable : JSVal → Option JSVal
  | .vNull => none
  | .vUndef => none
  | v => some v

/-- `getUserByEmail` of src/providers/db-user-provider.ts: log, run
`taskifiedGet("SELECT * FROM users WHERE email = ?", [email])`, `bimap`
the error into `UserServiceDbQueryError` and the row through
`O.fromNullable`, then validate a present row with `User.decode`, mapping
a validation failure into `UserServiceInvalidDataError`. -/
def dbGetUserByEmail (email : Email) (deps : DbDeps) :
    List String × Except UserServiceError (Option User) :=
  let m := isoEmail.unwrap email
  let logs := [s!"Preparing to query for {m}"]
  match deps.dbGet "SELECT * FROM users WHERE email = ?" [JSVal.vStr m] with
  | .error e => (logs, .error (mkUserServiceDbQueryError e))
  | .ok result =>
    match fromNullable result with
    | none => (logs, .ok none)
    | some row =>
      match decodeUser row with
      | .error err => (logs, .error (mkUserServiceInvalidDataError err))
      | .ok u => (logs, .ok (some u))

/-!
## Spec-side renderings of the DomainError message claim (C6)
-/

/-- The message function exactly as claim C6 states it: the payload's own
toString rendering whenever that rendering differs from the default Object
rendering, otherwise the JSON dump with `util.inspect` fallback. -/
def claimedMessage (data : JSVal) : Option String :=
  if jsToString data ≠ "[object Object]" then some (jsToString data)
  else jsonFallback data

/-- The amended message function: the toString preference applies only
when the payload is a non-null object (`typeof data === "object"` and
truthy); every other payload takes the JSON dump with `util.inspect`
fallback. -/
def amendedMessage (data : JSVal) : Option String :=
  if jsTruthy data && jsTypeofIsObject data
      && jsToString data ≠ "[object Object]" then
    some (jsToString data)
  else jsonFallback data

/-!
## Sample environments for concrete instantiations
-/

/-- An environment whose user lookup finds nobody. -/
def envUserAbsent : ShellEnv := ⟨fun _ => .ok none, fun _ => .ok none⟩

/-- A failing user-service error value. -/
def sampleUserError : UserServiceError := mkUserServiceDbQueryError (.vStr "db down")

/-- An environment whose user lookup fails. -/
def envUserFails : ShellEnv :=
  ⟨fun _ => .error sampleUserError, fun _ => .ok none⟩

/-- An environment wiring the two hardcoded providers together (the user
provider's `never` error and log trace are absorbed by `createUserService`
into the `UserService` contract). -/
def envHardcoded : ShellEnv :=
  ⟨fun e => .ok (hardcodedGetUserByEmail e).2, fun i => hardcodedGetAccountByOwnerId i⟩

/-- An environment with a user whose account lookup finds nothing. -/
def envAccountAbsent : ShellEnv :=
  ⟨fun _ => .ok (some ethanUser), fun _ => .ok none⟩

/-!
## Claims about the orchestration
-/

/-- Claim C1: for every email and environment whose user service returns a
successful absent user for it, `getAccountByUserEmail` succeeds with an
absent account and the account service is never invoked (no `accountCall`
event appears in the invocation trace). -/
theorem user_absent_short_circuits (email : Email) (env : ShellEnv)
    (h : env.getUserByEmail email = .ok none) :
    (getAccountByUserEmail email env).2 = .ok none ∧
      ∀ i, CallEvent.accountCall i ∉ (getAccountByUserEmail email env).1 := by
  simp [getAccountByUserEmail, getUserByEmailR, exceptMapErr, h, flatMapTr,
    traverseOptionTr, pureTr, mapTr]

theorem user_absent_short_circuits_witness :
    (getAccountByUserEmail (isoEmail.wrap "unknown@mercury.com") envUserAbsent).2
        = .ok none ∧
      ∀ i, CallEvent.accountCall i ∉
        (getAccountByUserEmail (isoEmail.wrap "unknown@mercury.com") envUserAbsent).1 :=
  user_absent_short_circuits (isoEmail.wrap "unknown@mercury.com") envUserAbsent rfl

/-- Claim C2: for every email and environment whose user service fails
with error `e`, `getAccountByUserEmail` fails with that same error value
(injected into the widened union as its user-service summand) and the
account service is never invoked. -/
theorem user_failure_propagates (email : Email) (env : ShellEnv)
    (e : UserServiceError) (h : env.getUserByEmail email = .error e) :
    (getAccountByUserEmail email env).2 = .error (Sum.inl e) ∧
      ∀ i, CallEvent.accountCall i ∉ (getAccountByUserEmail email env).1 := by
  simp [getAccountByUserEmail, getUserByEmailR, exceptMapErr, h, flatMapTr]

theorem user_failure_propagates_witness :
    (getAccountByUserEmail (isoEmail.wrap "x@y.com") envUserFails).2
        = .error (Sum.inl sampleUserError) ∧
      ∀ i, CallEvent.accountCall i ∉
        (getAccountByUserEmail (isoEmail.wrap "x@y.com") envUserFails).1 :=
  user_failure_propagates (isoEmail.wrap "x@y.com") envUserFails sampleUserError rfl

/-- Claim C3: for every email and environment whose user service returns a
present user `u` and whose account service returns a present account `a`
for `u.id`, `getAccountByUserEmail` succeeds with that account present,
and the invocation trace is exactly the user call followed by an account
call carrying `u.id`. -/
theorem present_user_account_found (email : Email) (env : ShellEnv)
    (u : User) (a : Account)
    (hu : env.getUserByEmail email = .ok (some u))
    (ha : env.getAccountByOwnerId u.id = .ok (some a)) :
    (getAccountByUserEmail email env).2 = .ok (some a) ∧
      (getAccountByUserEmail email env).1 =
        [CallEvent.userCall email, CallEvent.accountCall u.id] := by
  simp [getAccountByUserEmail, getUserByEmailR, getAccountByOwnerIdR,
    exceptMapErr, hu, ha, flatMapTr, traverseOptionTr, pureTr, mapTr]

theorem present_user_account_found_witness :
    (getAccountByUserEmail (isoEmail.wrap "ekent@mercury.com") envHardcoded).2
        = .ok (some hardcodedAccount) ∧
      (getAccountByUserEmail (isoEmail.wrap "ekent@mercury.com") envHardcoded).1 =
        [CallEvent.userCall (isoEmail.wrap "ekent@mercury.com"),
         CallEvent.accountCall ethanUser.id] :=
  present_user_account_found (isoEmail.wrap "ekent@mercury.com") envHardcoded
    ethanUser hardcodedAccount rfl rfl

/-- Claim C4: when the user lookup finds `u` but the account lookup for
`u.id` succeeds absent, `getAccountByUserEmail` succeeds with an absent
account, and that final value is identical to the one produced by an
environment whose user lookup itself comes back absent. -/
theorem account_absent_matches_user_absent (email : Email)
    (env env' : ShellEnv) (u : User)
    (hu : env.getUserByEmail email = .ok (some u))
    (ha : env.getAccountByOwnerId u.id = .ok none)
    (h' : env'.getUserByEmail email = .ok none) :
    (getAccountByUserEmail email env).2 = .ok none ∧
      (getAccountByUserEmail email env).2 = (getAccountByUserEmail email env').2 := by
  have h1 : (getAccountByUserEmail email env).2 = .ok none := by
    simp [getAccountByUserEmail, getUserByEmailR, getAccountByOwnerIdR,
      exceptMapErr, hu, ha, flatMapTr, traverseOptionTr, pureTr, mapTr]
  have h2 : (getAccountByUserEmail email env').2 = .ok none :=
    (user_absent_short_circuits email env' h').1
  exact ⟨h1, h1.trans h2.symm⟩

theorem account_absent_matches_user_absent_witness :
    (getAccountByUserEmail (isoEmail.wrap "e@x.com") envAccountAbsent).2 = .ok none ∧
      (getAccountByUserEmail (isoEmail.wrap "e@x.com") envAccountAbsent).2 =
        (getAccountByUserEmail (isoEmail.wrap "e@x.com") envUserAbsent).2 :=
  account_absent_matches_user_absent (isoEmail.wrap "e@x.com")
    envAccountAbsent envUserAbsent ethanUser rfl rfl rfl

/-!
## Claims about the providers and error model
-/

/-- The rejected value a failing `db.get` callback produces in the
repository's own test: `new Error("DB failure")` (an object whose own
`toString` yields `"Error: DB failure"`). -/
def dbFailureError : JSVal := .vObj (some "Error: DB failure") []

/-- A database collaborator whose every `get` reports an error. -/
def failingDbDeps : DbDeps := ⟨fun _ _ => .error dbFailureError⟩

/-- Claim C5: for every email, when the database collaborator reports an
error `e` for the user query (the callback receives a non-null error, so
the wrapped promise rejects with `e`), the db-backed `getUserByEmail`
fails with a `UserServiceDbQueryError` whose message is the
`DomainError` rendering of the original error `e`. -/
theorem db_error_yields_query_failure (email : Email) (deps : DbDeps)
    (e : JSVal)
    (h : deps.dbGet "SELECT * FROM users WHERE email = ?"
        [JSVal.vStr (isoEmail.unwrap email)] = .error e) :
    (dbGetUserByEmail email deps).2 = .error (mkUserServiceDbQueryError e) ∧
      (mkUserServiceDbQueryError e).name = "UserServiceDbQueryError" ∧
      (mkUserServiceDbQueryError e).message = safeStringify e := by
  refine ⟨?_, rfl, rfl⟩
  simp [dbGetUserByEmail, h]

theorem db_error_yields_query_failure_witness :
    (dbGetUserByEmail (isoEmail.wrap "ekent@mercury.com") failingDbDeps).2
        = .error (mkUserServiceDbQueryError dbFailureError) ∧
      (mkUserServiceDbQueryError dbFailureError).name = "UserServiceDbQueryError" ∧
      (mkUserServiceDbQueryError dbFailureError).message = safeStringify dbFailureError :=
  db_error_yields_query_failure (isoEmail.wrap "ekent@mercury.com")
    failingDbDeps dbFailureError rfl

/-- Claim C6, counterexample: on the string payload `"boom"` the claim as
stated fails — the payload's own toString rendering is `"boom"`, which
differs from the default Object rendering, yet the constructed
`DomainError`'s message is the JSON dump `"\"boom\""` (the toString
preference in the code applies only to non-null objects). -/
theorem domain_error_message_claim_cex :
    (mkDomainError "DomainError" (.vStr "boom")).message
      ≠ claimedMessage (.vStr "boom") := by
  simp [mkDomainError, safeStringify, claimedMessage, jsonFallback,
    jsonPretty, jsToString, jsTruthy, jsTypeofIsObject, jsonQuote,
    jsonEscapeChar]
  decide

/-- Claim C6, amended: for every payload the constructed `DomainError`'s
message — computed once, at construction, and immutable thereafter (the
structure carries no mutation) — equals the payload's own toString
rendering when the payload is a truthy value of object type whose
rendering differs from the default `"[object Object]"`, and otherwise the
pretty-printed `JSON.stringify(payload, null, 2)` dump, falling back to
`util.inspect` when stringification throws. -/
theorem domain_error_message_spec (name : String) (data : JSVal) :
    (mkDomainError name data).message = amendedMessage data := by
  simp only [mkDomainError, safeStringify, amendedMessage]
  cases h1 : jsTruthy data <;> cases h2 : jsTypeofIsObject data
  · simp
  · simp
  · simp
  · by_cases h3 : jsToString data = "[object Object]" <;> simp [h3]

/-- Claim C7: the orchestration's outcome (final value and invocation
trace) is a function of the email and of the collaborators' input/output
behaviour alone — with collaborators that are pure functions of their
input, two invocations with the same email and environment cannot
differ. -/
theorem orchestration_deterministic (email : Email) (env env' : ShellEnv)
    (hu : env.getUserByEmail = env'.getUserByEmail)
    (ha : env.getAccountByOwnerId = env'.getAccountByOwnerId) :
    getAccountByUserEmail email env = getAccountByUserEmail email env' := by
  cases env
  cases env'
  cases hu
  cases ha
  rfl

theorem orchestration_deterministic_witness :
    getAccountByUserEmail (isoEmail.wrap "ekent@mercury.com") envHardcoded =
      getAccountByUserEmail (isoEmail.wrap "ekent@mercury.com") envHardcoded :=
  orchestration_deterministic (isoEmail.wrap "ekent@mercury.com")
    envHardcoded envHardcoded rfl rfl

/-- Claim C8: the hardcoded user provider finds Ethan Kent for
`"ekent@mercury.com"` and logs the literal lookup message; for every email
absent from the hardcoded record the lookup succeeds absent, again logging
the analogous message. -/
theorem hardcoded_user_provider_scenarios :
    (hardcodedGetUserByEmail (isoEmail.wrap "ekent@mercury.com")).2 = some ethanUser ∧
    lookingUpMsg "ekent@mercury.com"
        ∈ (hardcodedGetUserByEmail (isoEmail.wrap "ekent@mercury.com")).1 ∧
    ∀ e : String, lookupRR e HardcodedUserDb = none →
      (hardcodedGetUserByEmail (isoEmail.wrap e)).2 = none ∧
        lookingUpMsg e ∈ (hardcodedGetUserByEmail (isoEmail.wrap e)).1 := by
  refine ⟨rfl, ?_, ?_⟩
  · simp only [hardcodedGetUserByEmail, List.mem_cons]
    exact Or.inl rfl
  · intro e he
    refine ⟨?_, ?_⟩
    · simp [hardcodedGetUserByEmail, isoEmail, he]
    · simp only [hardcodedGetUserByEmail, List.mem_cons]
      exact Or.inl rfl

theorem hardcoded_user_provider_scenarios_witness :
    (hardcodedGetUserByEmail (isoEmail.wrap "unknown@mercury.com")).2 = none ∧
      lookingUpMsg "unknown@mercury.com"
        ∈ (hardcodedGetUserByEmail (isoEmail.wrap "unknown@mercury.com")).1 :=
  hardcoded_user_provider_scenarios.2.2 "unknown@mercury.com" rfl

/-- Claim C9: the `Email` codec enforces nothing beyond "is a string" —
decoding any string succeeds, wrapping it unchanged, and wrap/unwrap via
`isoEmail` round-trips. -/
theorem email_codec_no_validation (s : String) :
    Email.decode (.vStr s) = .ok (isoEmail.wrap s) ∧
      isoEmail.unwrap (isoEmail.wrap s) = s :=
  ⟨rfl, rfl⟩

/-- Claim C10: the hardcoded account provider's `getAccountByOwnerId` can
never fail (its `AccountServiceError` branch is unreachable), returns the
hardcoded account present exactly when the unwrapped id is the key
`"a2a9a967-10bb-43b9-8230-99ae3a3d161f"`, and a successful absent account
for every other id. -/
theorem hardcoded_account_provider_total (i : UserId) :
    (∀ e : AccountServiceError, hardcodedGetAccountByOwnerId i ≠ .error e) ∧
    (isoUserId.unwrap i = "a2a9a967-10bb-43b9-8230-99ae3a3d161f" →
      hardcodedGetAccountByOwnerId i = .ok (some hardcodedAccount)) ∧
    (isoUserId.unwrap i ≠ "a2a9a967-10bb-43b9-8230-99ae3a3d161f" →
      hardcodedGetAccountByOwnerId i = .ok none) := by
  refine ⟨fun e => by simp [hardcodedGetAccountByOwnerId], ?_, ?_⟩ <;>
    intro h <;>
    simp [hardcodedGetAccountByOwnerId, HardcodedAccountDb, lookupRR, h]

theorem hardcoded_account_provider_total_witness :
    hardcodedGetAccountByOwnerId
        (isoUserId.wrap "a2a9a967-10bb-43b9-8230-99ae3a3d161f")
      = .ok (some hardcodedAccount) ∧
    hardcodedGetAccountByOwnerId (isoUserId.wrap "unknown-id") = .ok none :=
  ⟨(hardcoded_account_provider_total
      (isoUserId.wrap "a2a9a967-10bb-43b9-8230-99ae3a3d161f")).2.1 rfl,
   (hardcoded_account_provider_total (isoUserId.wrap "unknown-id")).2.2
      (by decide)⟩
